import Mathlib

/-!
Shallow embedding of the stage/state-machine core of the Auto-Book-Management
repository (task scheduler, pipeline stage wrapper, search-stage selection and
the persistent data model), together with theorems settling the specification
claims about it.  Python `datetime` values are modelled as `Nat` timestamps
(seconds), floats that only undergo comparison, subtraction, scaling and
truncation are modelled as `ℚ`, and the database is modelled as association
lists keyed by integer ids.
-/

namespace AutoBook

/-- The `BookStatus` enum exactly as defined in `src/db/models.py` (the legacy
nine-value enum actually present in the checked-in model file). -/
inductive ModelsBookStatus where
  | NEW
  | WITH_DETAIL
  | MATCHED
  | SEARCHING
  | SEARCH_NOT_FOUND
  | DOWNLOADING
  | DOWNLOADED
  | UPLOADING
  | UPLOADED
deriving DecidableEq, Repr, Fintype

/-- The string payload of each `src/db/models.py` `BookStatus` member. -/
def ModelsBookStatus.value : ModelsBookStatus → String
  | .NEW => "new"
  | .WITH_DETAIL => "with_detail"
  | .MATCHED => "matched"
  | .SEARCHING => "searching"
  | .SEARCH_NOT_FOUND => "search_not_found"
  | .DOWNLOADING => "downloading"
  | .DOWNLOADED => "downloaded"
  | .UPLOADING => "uploading"
  | .UPLOADED => "uploaded"

/-- The eighteen status values named by the spec's closed Item-status set. -/
def specClaimedStatusValues : List String :=
  ["new", "detail_fetching", "detail_complete", "search_queued",
   "search_active", "search_complete", "search_no_results", "skipped_exists",
   "download_queued", "download_active", "download_complete", "download_failed",
   "upload_queued", "upload_active", "upload_complete", "upload_failed",
   "completed", "failed_permanent"]

/-- Modelled from the spec: the eighteen-value Item status enum that
`core/pipeline.py`, `core/task_scheduler.py`, the stage modules and the tests
all reference (members such as `DETAIL_COMPLETE`, `SEARCH_QUEUED`,
`FAILED_PERMANENT`), but which is missing from `src/` — the checked-in
`src/db/models.py` still holds the legacy nine-value enum. -/
inductive BStatus where
  | NEW
  | DETAIL_FETCHING
  | DETAIL_COMPLETE
  | SEARCH_QUEUED
  | SEARCH_ACTIVE
  | SEARCH_COMPLETE
  | SEARCH_NO_RESULTS
  | SKIPPED_EXISTS
  | DOWNLOAD_QUEUED
  | DOWNLOAD_ACTIVE
  | DOWNLOAD_COMPLETE
  | DOWNLOAD_FAILED
  | UPLOAD_QUEUED
  | UPLOAD_ACTIVE
  | UPLOAD_COMPLETE
  | UPLOAD_FAILED
  | COMPLETED
  | FAILED_PERMANENT
deriving DecidableEq, Repr, Fintype

/-- `TaskStatus` from `src/core/task_scheduler.py`. -/
inductive TaskStatus where
  | QUEUED
  | ACTIVE
  | COMPLETED
  | FAILED
  | SKIPPED
  | CANCELLED
deriving DecidableEq, Repr

/-- `ScheduledTask` from `src/core/task_scheduler.py` (datetimes as `Nat`
timestamps; the opaque `task_data` payload is dropped as no claim touches
it). -/
structure ScheduledTask where
  id : Nat
  book_id : Nat
  stage : String
  priority : Int
  created_at : Nat
  retry_count : Nat := 0
  max_retries : Nat := 3
  next_run_time : Nat
deriving DecidableEq, Repr

/-- `ScheduledTask.__lt__`: order by `next_run_time` ascending, then
`priority` descending, then `created_at` ascending. -/
def taskLT (a b : ScheduledTask) : Bool :=
  if a.next_run_time ≠ b.next_run_time then
    a.next_run_time < b.next_run_time
  else if a.priority ≠ b.priority then
    a.priority > b.priority
  else
    a.created_at < b.created_at

/-! ## CPython `heapq`, as used for the in-memory task queue -/

/-- The loop body of `heapq._siftdown` (fuel-bounded; the fuel is always at
least the heap length, which bounds the number of parent hops). -/
def siftdownLoop : Nat → List ScheduledTask → Nat → Nat → ScheduledTask →
    List ScheduledTask
  | 0, heap, _, pos, newitem => heap.set pos newitem
  | fuel + 1, heap, startpos, pos, newitem =>
    if pos > startpos then
      let parentpos := (pos - 1) / 2
      match heap.get? parentpos with
      | some parent =>
        if taskLT newitem parent then
          siftdownLoop fuel (heap.set pos parent) startpos parentpos newitem
        else
          heap.set pos newitem
      | none => heap.set pos newitem
    else
      heap.set pos newitem

/-- `heapq._siftup`'s child-descent loop (fuel-bounded). -/
def siftupLoop : Nat → List ScheduledTask → Nat → Nat → ScheduledTask →
    (List ScheduledTask × Nat)
  | 0, heap, _, pos, _ => (heap, pos)
  | fuel + 1, heap, startpos, pos, newitem =>
    let endpos := heap.length
    let childpos := 2 * pos + 1
    if h : childpos < endpos then
      let rightpos := childpos + 1
      let childpos :=
        if hr : rightpos < endpos then
          if taskLT (heap.get ⟨childpos, h⟩) (heap.get ⟨rightpos, hr⟩) then
            childpos
          else rightpos
        else childpos
      match heap.get? childpos with
      | some child =>
        siftupLoop fuel (heap.set pos child) startpos childpos newitem
      | none => (heap, pos)
    else
      (heap, pos)

/-- `heapq._siftup`: descend to a leaf moving the smaller child up, place the
new item there, then restore the heap property with `_siftdown`. -/
def siftup (heap : List ScheduledTask) (pos : Nat) : List ScheduledTask :=
  match heap.get? pos with
  | none => heap
  | some newitem =>
    let (heap', pos') := siftupLoop heap.length heap pos pos newitem
    siftdownLoop heap'.length (heap'.set pos' newitem) pos pos' newitem

/-- `heapq.heappush`: append then sift the new item toward the root. -/
def heappush (heap : List ScheduledTask) (item : ScheduledTask) :
    List ScheduledTask :=
  let h := heap ++ [item]
  siftdownLoop h.length h 0 (h.length - 1) item

/-- `heapq.heappop`: pop the last element; if the heap is still nonempty,
return the root, move the last element to the root and sift it down. -/
def heappop (heap : List ScheduledTask) :
    Option (ScheduledTask × List ScheduledTask) :=
  match heap.getLast?, heap.dropLast with
  | none, _ => none
  | some lastelt, [] => some (lastelt, [])
  | some lastelt, h0 :: rest => some (h0, siftup (lastelt :: rest) 0)

/-- The first element popped from the two-element heap built by pushing `a`
then `b` into an empty heap. -/
def popFirstOfPair (a b : ScheduledTask) : Option ScheduledTask :=
  (heappop (heappush (heappush [] a) b)).map Prod.fst

lemma heappush_pair (a b : ScheduledTask) :
    heappush (heappush [] a) b = if taskLT b a then [b, a] else [a, b] := by
  by_cases h : taskLT b a <;>
    simp [heappush, siftdownLoop, h]

lemma popFirstOfPair_eq (a b : ScheduledTask) :
    popFirstOfPair a b = some (if taskLT b a then b else a) := by
  by_cases h : taskLT b a <;>
    simp [popFirstOfPair, heappush_pair, h, heappop]

lemma taskLT_of_eq_run_time_higher_priority {a b : ScheduledTask}
    (ht : a.next_run_time = b.next_run_time) (hp : a.priority > b.priority) :
    taskLT a b = true ∧ taskLT b a = false := by
  constructor <;> simp [taskLT, ht, hp.ne, hp.ne', not_lt_of_gt hp, hp]

lemma taskLT_of_eq_run_time_eq_priority_earlier {a b : ScheduledTask}
    (ht : a.next_run_time = b.next_run_time) (hp : a.priority = b.priority)
    (hc : a.created_at < b.created_at) :
    taskLT a b = true ∧ taskLT b a = false := by
  constructor <;> simp [taskLT, ht, hp, hc, Nat.le_of_lt hc, Nat.not_lt.mpr]

lemma taskLT_of_lt_run_time {a b : ScheduledTask}
    (ht : a.next_run_time < b.next_run_time) :
    taskLT a b = true ∧ taskLT b a = false := by
  constructor <;>
    simp [taskLT, ht, ht.ne, ht.ne', Nat.not_lt.mpr (Nat.le_of_lt ht)]

/-- C8: for every pair of queued tasks with equal `next_run_time`, the heap
pops the one with the higher priority first (whatever the insertion order);
among tasks with equal `next_run_time` and equal priority, the one with the
earlier `created_at` pops first; for tasks with different `next_run_time`,
the earlier `next_run_time` pops first. -/
theorem C8_heap_pop_order (a b : ScheduledTask) :
    (a.next_run_time = b.next_run_time → a.priority > b.priority →
      popFirstOfPair a b = some a ∧ popFirstOfPair b a = some a) ∧
    (a.next_run_time = b.next_run_time → a.priority = b.priority →
      a.created_at < b.created_at →
      popFirstOfPair a b = some a ∧ popFirstOfPair b a = some a) ∧
    (a.next_run_time < b.next_run_time →
      popFirstOfPair a b = some a ∧ popFirstOfPair b a = some a) := by
  refine ⟨fun ht hp => ?_, fun ht hp hc => ?_, fun ht => ?_⟩
  · obtain ⟨h₁, h₂⟩ := taskLT_of_eq_run_time_higher_priority ht hp
    rw [popFirstOfPair_eq, popFirstOfPair_eq, h₁, h₂]
    simp
  · obtain ⟨h₁, h₂⟩ := taskLT_of_eq_run_time_eq_priority_earlier ht hp hc
    rw [popFirstOfPair_eq, popFirstOfPair_eq, h₁, h₂]
    simp
  · obtain ⟨h₁, h₂⟩ := taskLT_of_lt_run_time ht
    rw [popFirstOfPair_eq, popFirstOfPair_eq, h₁, h₂]
    simp

/-- Witness for `C8_heap_pop_order` at two concrete tasks due at the same
time with priorities 10 and 5. -/
theorem C8_heap_pop_order_witness :
    popFirstOfPair ⟨1, 11, "search", 10, 0, 0, 3, 50⟩
        ⟨2, 12, "download", 5, 1, 0, 3, 50⟩ =
      some ⟨1, 11, "search", 10, 0, 0, 3, 50⟩ ∧
    popFirstOfPair ⟨2, 12, "download", 5, 1, 0, 3, 50⟩
        ⟨1, 11, "search", 10, 0, 0, 3, 50⟩ =
      some ⟨1, 11, "search", 10, 0, 0, 3, 50⟩ :=
  (C8_heap_pop_order _ _).1 rfl (by decide)

/-- The nine status strings of the legacy enum in `src/db/models.py`. -/
def modelsStatusValues : List String :=
  ["new", "with_detail", "matched", "searching", "search_not_found",
   "downloading", "downloaded", "uploading", "uploaded"]

/-- C2 (code evaluated at the failing input): the `BookStatus` enum defined in
`src/db/models.py` is exactly the nine-value legacy set; it has no member for
`detail_fetching`, and it contains `with_detail`, which is outside the
eighteen-value closed set the claim names — while the rest of the repository
(`core/pipeline.py:236`, `core/task_scheduler.py:573`, the stage modules and
the integration tests) references members of the eighteen-value set that this
enum does not define. -/
theorem C2_models_status_enum_is_legacy :
    (∀ s : ModelsBookStatus, s.value ∈ modelsStatusValues) ∧
    (∀ v ∈ modelsStatusValues, ∃ s : ModelsBookStatus, s.value = v) ∧
    (¬ ∃ s : ModelsBookStatus, s.value = "detail_fetching") ∧
    "with_detail" ∈ modelsStatusValues ∧
    "with_detail" ∉ specClaimedStatusValues ∧
    modelsStatusValues.length = 9 ∧ specClaimedStatusValues.length = 18 := by
  decide

/-! ## Task scheduler state (`src/core/task_scheduler.py`) -/

/-- A row of the durable task table (`ProcessingTask`): the fields the
scheduler reads and writes.  `ProcessingTask` itself is referenced throughout
the repository but its model class is absent from `src/db/models.py`; the
fields here are the ones `TaskScheduler` populates and mutates. -/
structure TaskRecord where
  book_id : Nat
  stage : String
  status : TaskStatus
  priority : Int
  max_retries : Nat
  error_message : String := ""
  updated_at : Nat := 0
  started_at : Option Nat := none
  completed_at : Option Nat := none
deriving DecidableEq, Repr

/-- The durable task table, keyed by task id. -/
abbrev TaskDb := List (Nat × TaskRecord)

/-- The field writes `TaskScheduler._update_task_status` performs on a loaded
row: set the new status and `updated_at`; stamp `started_at` on `ACTIVE`;
stamp `completed_at` on a terminal status; record a nonempty error text. -/
def applyStatusUpd (r : TaskRecord) (st : TaskStatus) (errMsg : String)
    (now : Nat) : TaskRecord :=
  { r with
    status := st
    updated_at := now
    started_at := if st = .ACTIVE then some now else r.started_at
    completed_at :=
      if st = .COMPLETED ∨ st = .FAILED ∨ st = .CANCELLED then some now
      else r.completed_at
    error_message := if errMsg ≠ "" then errMsg else r.error_message }

/-- `TaskScheduler._update_task_status`: load the row by id and mutate it if
present, otherwise do nothing. -/
def updateTaskStatus (db : TaskDb) (taskId : Nat) (st : TaskStatus)
    (errMsg : String) (now : Nat) : TaskDb :=
  db.map fun kr =>
    (kr.1, if kr.1 = taskId then applyStatusUpd kr.2 st errMsg now else kr.2)

/-- The in-memory and durable state a `TaskScheduler` instance owns, plus the
book store it consults through the state manager. -/
structure SchedState where
  max_concurrent_tasks : Nat
  queue : List ScheduledTask := []
  activeTasks : List (Nat × ScheduledTask) := []
  db : TaskDb := []
  books : List (Nat × BStatus) := []
  running : Bool := false
  next_task_id : Nat := 1
deriving DecidableEq, Repr

/-- The per-stage acceptable book statuses of
`TaskScheduler._can_schedule_for_stage` (an unknown stage maps to the empty
set). -/
def stageAcceptableStatuses : String → List BStatus
  | "data_collection" => [.NEW, .DETAIL_FETCHING]
  | "search" => [.DETAIL_COMPLETE, .SEARCH_QUEUED, .SEARCH_ACTIVE]
  | "download" => [.DOWNLOAD_QUEUED, .DOWNLOAD_ACTIVE]
  | "upload" => [.DOWNLOAD_COMPLETE, .UPLOAD_QUEUED, .UPLOAD_ACTIVE]
  | _ => []

/-- `TaskScheduler._can_schedule_for_stage`: false when the book does not
exist, otherwise membership of its current status in the stage's table. -/
def canScheduleForStage (s : SchedState) (bookId : Nat) (stage : String) :
    Bool :=
  match s.books.lookup bookId with
  | none => false
  | some st => st ∈ stageAcceptableStatuses stage

/-- `TaskScheduler.schedule_task`: reject (raise) before any write when the
stage check fails; otherwise create the durable row, then push the in-memory
task with `next_run_time = now + delay_seconds`. -/
def scheduleTask (s : SchedState) (bookId : Nat) (stage : String)
    (priority : Int) (delaySeconds : Nat) (maxRetries : Nat) (now : Nat) :
    Except String Nat × SchedState :=
  if ¬ canScheduleForStage s bookId stage then
    (.error ("书籍ID " ++ toString bookId ++ " 的当前状态不适合调度 " ++ stage
        ++ " 阶段任务"), s)
  else
    let runTime := now + delaySeconds
    let taskId := s.next_task_id
    let row : TaskRecord :=
      { book_id := bookId, stage := stage, status := .QUEUED,
        priority := priority, max_retries := maxRetries }
    let task : ScheduledTask :=
      { id := taskId, book_id := bookId, stage := stage, priority := priority,
        created_at := now, retry_count := 0, max_retries := maxRetries,
        next_run_time := runTime }
    (.ok taskId,
      { s with
        db := s.db ++ [(taskId, row)]
        queue := heappush s.queue task
        next_task_id := taskId + 1 })

/-- `TaskScheduler.stop`: return immediately when not running; otherwise mark
every still-queued task `CANCELLED` in the durable store, clear the in-memory
queue and clear the active-task map. -/
def stopScheduler (s : SchedState) (now : Nat) : SchedState :=
  if ¬ s.running then s
  else
    { s with
      running := false
      db := s.queue.foldl
        (fun db t => updateTaskStatus db t.id .CANCELLED "" now) s.db
      queue := []
      activeTasks := [] }

/-- The due-task drain at the top of `TaskScheduler._scheduler_loop`: pop
heap-top tasks while their `next_run_time ≤ now` (fuel-bounded by the queue
length). -/
def popDueLoop : Nat → List ScheduledTask → Nat → List ScheduledTask →
    (List ScheduledTask × List ScheduledTask)
  | 0, q, _, acc => (acc, q)
  | fuel + 1, q, now, acc =>
    match q with
    | [] => (acc, q)
    | top :: _ =>
      if top.next_run_time ≤ now then
        match heappop q with
        | some (t, q') => popDueLoop fuel q' now (acc ++ [t])
        | none => (acc, q)
      else (acc, q)

/-- Pop all due tasks from the heap, in heap order. -/
def popDue (q : List ScheduledTask) (now : Nat) :
    (List ScheduledTask × List ScheduledTask) :=
  popDueLoop q.length q now []

/-- The synchronous effect of `TaskScheduler._execute_task` inside the tick:
fail the task when no handler is registered for its stage; otherwise add it
to the active-task map and mark the durable row `ACTIVE` (the handler itself
then runs in its own thread). -/
def executeTask (s : SchedState) (t : ScheduledTask) (now : Nat)
    (handlerRegistered : String → Bool) : SchedState :=
  if ¬ handlerRegistered t.stage then
    { s with
      db := updateTaskStatus s.db t.id .FAILED ("未找到处理器: " ++ t.stage) now }
  else
    { s with
      activeTasks := s.activeTasks ++ [(t.id, t)]
      db := updateTaskStatus s.db t.id .ACTIVE "" now }

/-- One iteration of `TaskScheduler._scheduler_loop`: drain the due tasks;
compute the free slots; when no slot is free push every popped task back;
otherwise dispatch the first `available_slots` popped tasks — the code pushes
nothing back in this branch, so popped tasks beyond the free slots are
dropped from the in-memory queue. -/
def schedulerTick (s : SchedState) (now : Nat)
    (handlerRegistered : String → Bool) : SchedState :=
  let (due, q1) := popDue s.queue now
  let avail := s.max_concurrent_tasks - s.activeTasks.length
  if avail = 0 then
    { s with queue := due.foldl heappush q1 }
  else
    (due.take avail).foldl (fun st t => executeTask st t now handlerRegistered)
      { s with queue := q1 }

/-! ## Failure handling and retry backoff -/

/-- The error categories of the error-classification policy. -/
inductive PyExcKind where
  | network
  | auth
  | notFound
  | downloadLimit
  | statusMismatch
  | system
deriving DecidableEq, Repr

/-- Classification result. -/
structure ErrorInfo where
  error_type : String
  retryable : Bool
deriving DecidableEq, Repr

/-- Modelled from the spec: `ErrorClassifier.classify_error` of
`core/error_handler.py` (imported by the scheduler but absent from `src/`).
The spec's fixed policy: `auth` and `not_found` are never retryable;
`quota_exhausted` (the download-limit signal) is handled by pausing, not
retrying; `network`, `status_mismatch` and unclassified `system` errors are
retryable. -/
def classifyError : PyExcKind → ErrorInfo
  | .network => ⟨"network", true⟩
  | .auth => ⟨"auth", false⟩
  | .notFound => ⟨"not_found", false⟩
  | .downloadLimit => ⟨"download_limit", false⟩
  | .statusMismatch => ⟨"status_mismatch", true⟩
  | .system => ⟨"system", true⟩

/-- Whether `pat` occurs as a contiguous run at the front of `l`. -/
def leadsChars : List Char → List Char → Bool
  | [], _ => true
  | _ :: _, [] => false
  | a :: as, b :: bs => a == b && leadsChars as bs

/-- Python's `pat in s` substring test. -/
def hasSub (pat s : String) : Bool :=
  s.data.tails.any (fun t => leadsChars pat.data t)

/-- The status-mismatch message test of `TaskScheduler._handle_task_failure`:
`"status_mismatch" in error_message`, or `"状态" in error_message` together
with one of the three queued-status names. -/
def isStatusMismatchMsg (msg : String) : Bool :=
  hasSub "status_mismatch" msg ||
    (hasSub "状态" msg &&
      (hasSub "SEARCH_QUEUED" msg || hasSub "DOWNLOAD_QUEUED" msg ||
        hasSub "UPLOAD_QUEUED" msg))

/-- The exponential backoff step: `min(300, 30 * 2 ** (retry_count - 1))`. -/
def expBackoffDelay (n : Nat) : Nat := min 300 (30 * 2 ^ (n - 1))

/-- Outcome of `_handle_task_failure`. -/
inductive FailResult where
  | nonRetryableFailed
  | requeued (t' : ScheduledTask) (delay : Nat)
  | exhaustedFailed
deriving DecidableEq, Repr

/-- The retry half of `TaskScheduler._handle_task_failure` (entered after the
non-retryable check): increment the retry count; while retries remain compute
the delay — the short fixed step for a status-mismatch message within the
first two retries, exponential backoff otherwise — and re-push the task with
the new `next_run_time`; once retries are exhausted mark the task `FAILED`
and push nothing. -/
def handleTaskRetry (s : SchedState) (task : ScheduledTask)
    (errorMessage : String) (now : Nat) : SchedState × FailResult :=
  let rc := task.retry_count + 1
  if rc ≤ task.max_retries then
    let delay :=
      if isStatusMismatchMsg errorMessage && rc ≤ 2 then 5 + rc * 5
      else expBackoffDelay rc
    let t' := { task with retry_count := rc, next_run_time := now + delay }
    ({ s with
        queue := heappush s.queue t'
        db := updateTaskStatus s.db task.id .QUEUED
          ("重试 " ++ toString rc ++ "/" ++ toString task.max_retries ++ ": "
            ++ errorMessage) now },
      .requeued t' delay)
  else
    ({ s with db := updateTaskStatus s.db task.id .FAILED errorMessage now },
      .exhaustedFailed)

/-- `TaskScheduler._handle_task_failure`: a classified non-retryable error
fails the task immediately; otherwise the retry half runs. -/
def handleTaskFailure (s : SchedState) (task : ScheduledTask)
    (errorMessage : String) (exc : Option PyExcKind) (now : Nat) :
    SchedState × FailResult :=
  match exc with
  | some e =>
    if ¬ (classifyError e).retryable then
      ({ s with
          db := updateTaskStatus s.db task.id .FAILED
            ("非重试性错误: " ++ errorMessage) now },
        .nonRetryableFailed)
    else handleTaskRetry s task errorMessage now
  | none => handleTaskRetry s task errorMessage now

lemma lookup_updateTaskStatus (db : TaskDb) (tid qid : Nat) (st : TaskStatus)
    (msg : String) (now : Nat) :
    (updateTaskStatus db tid st msg now).lookup qid =
      if qid = tid then
        (db.lookup qid).map (fun r => applyStatusUpd r st msg now)
      else db.lookup qid := by
  induction db with
  | nil => simp [updateTaskStatus]
  | cons kr rest ih =>
    obtain ⟨k, r⟩ := kr
    simp only [updateTaskStatus, List.map_cons, List.lookup] at ih ⊢
    by_cases h2 : qid = k
    · subst h2
      by_cases h1 : qid = tid <;> simp [h1]
    · have hbeq : (qid == k) = false := beq_eq_false_iff_ne.mpr h2
      simp only [hbeq]
      exact ih

lemma cancelFold_preserves (L : List ScheduledTask) :
    ∀ (db : TaskDb) (qid : Nat) (r : TaskRecord) (now : Nat),
      db.lookup qid = some r → r.status = .CANCELLED →
      r.completed_at = some now →
      ∃ r',
        (L.foldl (fun db t => updateTaskStatus db t.id .CANCELLED "" now)
          db).lookup qid = some r' ∧
        r'.status = .CANCELLED ∧ r'.completed_at = some now := by
  induction L with
  | nil => exact fun db qid r now hr hst hc => ⟨r, hr, hst, hc⟩
  | cons t rest ih =>
    intro db qid r now hr hst hc
    simp only [List.foldl]
    by_cases h : qid = t.id
    · refine ih _ _ (applyStatusUpd r .CANCELLED "" now) now ?_ ?_ ?_
      · rw [lookup_updateTaskStatus, if_pos h, hr]; rfl
      · simp [applyStatusUpd]
      · simp [applyStatusUpd]
    · refine ih _ _ r now ?_ hst hc
      rw [lookup_updateTaskStatus, if_neg h]; exact hr

lemma cancelFold_cancels (L : List ScheduledTask) :
    ∀ (db : TaskDb) (t : ScheduledTask) (r : TaskRecord) (now : Nat),
      t ∈ L → db.lookup t.id = some r →
      ∃ r',
        (L.foldl (fun db u => updateTaskStatus db u.id .CANCELLED "" now)
          db).lookup t.id = some r' ∧
        r'.status = .CANCELLED ∧ r'.completed_at = some now := by
  induction L with
  | nil => exact fun db t r now hmem _ => absurd hmem (List.not_mem_nil t)
  | cons u rest ih =>
    intro db t r now hmem hr
    simp only [List.foldl]
    rcases List.mem_cons.mp hmem with rfl | hmem'
    · refine cancelFold_preserves rest _ _ (applyStatusUpd r .CANCELLED "" now)
        now ?_ ?_ ?_
      · rw [lookup_updateTaskStatus, if_pos rfl, hr]; rfl
      · simp [applyStatusUpd]
      · simp [applyStatusUpd]
    · by_cases h : t.id = u.id
      · refine ih _ t (applyStatusUpd r .CANCELLED "" now) now hmem' ?_
        rw [lookup_updateTaskStatus, if_pos h, hr]; rfl
      · refine ih _ t r now hmem' ?_
        rw [lookup_updateTaskStatus, if_neg h]; exact hr

/-- C10: `stop()` on a running scheduler marks every still-queued task
cancelled in the durable store (stamping its completion time), empties the
in-memory priority queue and the active-task map; `stop()` on a non-running
scheduler returns immediately and changes nothing. -/
theorem C10_stop_scheduler (s : SchedState) (now : Nat) :
    (s.running = false → stopScheduler s now = s) ∧
    (s.running = true →
      (stopScheduler s now).queue = [] ∧
      (stopScheduler s now).activeTasks = [] ∧
      (stopScheduler s now).running = false ∧
      ∀ t ∈ s.queue, ∀ r, s.db.lookup t.id = some r →
        ∃ r', (stopScheduler s now).db.lookup t.id = some r' ∧
          r'.status = .CANCELLED ∧ r'.completed_at = some now) := by
  constructor
  · intro h; simp [stopScheduler, h]
  · intro h
    refine ⟨by simp [stopScheduler, h], by simp [stopScheduler, h],
      by simp [stopScheduler, h], ?_⟩
    intro t hmem r hr
    simpa [stopScheduler, h] using
      cancelFold_cancels s.queue s.db t r now hmem hr

/-- A concrete running scheduler with one queued task, for the C10 witness. -/
def c10State : SchedState :=
  { max_concurrent_tasks := 2
    queue := [⟨7, 70, "search", 5, 0, 0, 3, 40⟩]
    db := [(7, ⟨70, "search", .QUEUED, 5, 3, "", 0, none, none⟩)]
    running := true }

/-- Witness for `C10_stop_scheduler` on a concrete running scheduler. -/
theorem C10_stop_scheduler_witness :
    (stopScheduler c10State 99).queue = [] ∧
    (stopScheduler c10State 99).activeTasks = [] ∧
    (stopScheduler c10State 99).running = false ∧
    ∃ r', (stopScheduler c10State 99).db.lookup 7 = some r' ∧
      r'.status = .CANCELLED ∧ r'.completed_at = some 99 := by
  obtain ⟨-, h⟩ := C10_stop_scheduler c10State 99
  obtain ⟨h1, h2, h3, h4⟩ := h rfl
  exact ⟨h1, h2, h3, h4 ⟨7, 70, "search", 5, 0, 0, 3, 40⟩ (by simp [c10State])
    ⟨70, "search", .QUEUED, 5, 3, "", 0, none, none⟩ (by simp [c10State])⟩

/-- C9: `schedule_task` raises (returning the scheduler state unchanged — in
particular writing no durable task row and pushing nothing onto the in-memory
queue) whenever the book does not exist or its current status is not in the
stage's acceptable-status table. -/
theorem C9_schedule_task_rejected (s : SchedState) (bookId : Nat)
    (stage : String) (priority : Int) (delaySeconds maxRetries now : Nat)
    (h : s.books.lookup bookId = none ∨
      ∀ st, s.books.lookup bookId = some st →
        st ∉ stageAcceptableStatuses stage) :
    ∃ msg,
      scheduleTask s bookId stage priority delaySeconds maxRetries now =
        (.error msg, s) := by
  have hcan : canScheduleForStage s bookId stage = false := by
    unfold canScheduleForStage
    rcases h with h | h
    · simp [h]
    · cases hb : s.books.lookup bookId with
      | none => simp
      | some st => simpa using h st hb
  exact ⟨"书籍ID " ++ toString bookId ++ " 的当前状态不适合调度 " ++ stage
      ++ " 阶段任务",
    by simp [scheduleTask, hcan]⟩

/-- Witness for `C9_schedule_task_rejected`: a book in `COMPLETED` cannot be
scheduled for the `search` stage. -/
theorem C9_schedule_task_rejected_witness :
    ∃ msg,
      scheduleTask { max_concurrent_tasks := 2, books := [(1, .COMPLETED)] }
          1 "search" 5 0 3 100 =
        (.error msg, { max_concurrent_tasks := 2, books := [(1, .COMPLETED)] }) :=
  C9_schedule_task_rejected _ 1 "search" 5 0 3 100
    (Or.inr (by intro st hst; simp at hst; simp [← hst, stageAcceptableStatuses]))

/-- The five due tasks of the C1 scenario (`next_run_time` 1..5, all due at
tick time 10). -/
def c1Task (i : Nat) : ScheduledTask :=
  ⟨i, 100 + i, "search", 5, i, 0, 3, i⟩

/-- The C1 scenario state: `maxConcurrentTasks = 2`, no active tasks, five
due tasks in the heap, five matching `QUEUED` rows in the durable store. -/
def c1State : SchedState :=
  { max_concurrent_tasks := 2
    queue := ((List.range 5).map (fun i => c1Task (i + 1))).foldl heappush []
    activeTasks := []
    db := (List.range 5).map
      (fun i => (i + 1, ⟨100 + i + 1, "search", .QUEUED, 5, 3, "", 0, none, none⟩))
    books := []
    running := true
    next_task_id := 6 }

/-- C1 (code evaluated at the failing input): with `maxConcurrentTasks = 2`,
five due tasks and no active task, one scheduler tick marks exactly two tasks
active but leaves the in-memory queue empty — the three popped-but-undispatched
tasks are dropped rather than pushed back (the push-back only happens in the
`available_slots <= 0` branch), so their durable rows stay `QUEUED` while no
in-memory task exists any more. -/
theorem C1_overflow_due_tasks_dropped :
    c1State.queue.length = 5 ∧
    (∀ t ∈ c1State.queue, t.next_run_time ≤ 10) ∧
    ((schedulerTick c1State 10 (fun _ => true)).activeTasks.map Prod.fst
      = [1, 2]) ∧
    (schedulerTick c1State 10 (fun _ => true)).queue = [] ∧
    ((schedulerTick c1State 10 (fun _ => true)).db.lookup 3).map
      TaskRecord.status = some .QUEUED := by
  decide

/-- C3: when a failure is handled while retries remain and no non-retryable
classification short-circuits, the task is re-pushed with delay
`5 + 5*retryCount` for a status-mismatch error with `retryCount ≤ 2` (counts
after incrementing) and `min(300, 30 * 2^(retryCount-1))` otherwise; the
exponential-backoff delay is non-decreasing in the retry count and never
exceeds 300 seconds. -/
theorem C3_retry_backoff_delay (s : SchedState) (task : ScheduledTask)
    (msg : String) (exc : Option PyExcKind) (now : Nat)
    (hretryable : ∀ e, exc = some e → (classifyError e).retryable = true)
    (hrem : task.retry_count + 1 ≤ task.max_retries) :
    (handleTaskFailure s task msg exc now).2 =
      .requeued
        { task with
          retry_count := task.retry_count + 1
          next_run_time := now +
            (if isStatusMismatchMsg msg = true ∧ task.retry_count + 1 ≤ 2 then
              5 + 5 * (task.retry_count + 1)
            else min 300 (30 * 2 ^ (task.retry_count + 1 - 1))) }
        (if isStatusMismatchMsg msg = true ∧ task.retry_count + 1 ≤ 2 then
          5 + 5 * (task.retry_count + 1)
        else min 300 (30 * 2 ^ (task.retry_count + 1 - 1))) ∧
    (∀ n, 1 ≤ n → expBackoffDelay n ≤ expBackoffDelay (n + 1)) ∧
    (∀ n, expBackoffDelay n ≤ 300) := by
  refine ⟨?_, ?_, ?_⟩
  · have hh : handleTaskFailure s task msg exc now =
        handleTaskRetry s task msg now := by
      cases exc with
      | none => rfl
      | some e => simp [handleTaskFailure, hretryable e rfl]
    rw [hh]
    simp only [handleTaskRetry, hrem, if_pos]
    by_cases hm : isStatusMismatchMsg msg
    · by_cases h2 : task.retry_count + 1 ≤ 2 <;>
        simp [hm, h2, expBackoffDelay, Nat.mul_comm]
    · simp [hm, expBackoffDelay]
  · intro n hn
    unfold expBackoffDelay
    exact min_le_min (le_refl 300)
      (Nat.mul_le_mul_left 30
        (Nat.pow_le_pow_right (by norm_num) (Nat.sub_le_sub_right (Nat.le_succ n) 1)))
  · intro n
    exact min_le_left 300 _

/-- The concrete task of the C3 witness. -/
def c3Task : ScheduledTask := ⟨1, 1, "search", 5, 0, 0, 3, 0⟩

/-- Witness for `C3_retry_backoff_delay`: a first-retry status-mismatch
failure is re-pushed with delay `5 + 5*1 = 10`, and the backoff bounds hold
at concrete retry counts. -/
theorem C3_retry_backoff_delay_witness :
    (handleTaskFailure { max_concurrent_tasks := 2 } c3Task "status_mismatch"
        none 0).2 =
      .requeued { c3Task with retry_count := 1, next_run_time := 10 } 10 ∧
    expBackoffDelay 1 ≤ expBackoffDelay 2 ∧ expBackoffDelay 5 ≤ 300 := by
  obtain ⟨h1, h2, h3⟩ := C3_retry_backoff_delay { max_concurrent_tasks := 2 }
    c3Task "status_mismatch" none 0 (fun e h => nomatch h) (by decide)
  refine ⟨?_, h2 1 (by decide), h3 5⟩
  rw [h1]
  norm_num [c3Task]
  decide

lemma heappush_nil (t : ScheduledTask) : heappush [] t = [t] := by
  simp [heappush, siftdownLoop]

lemma heappop_singleton (t : ScheduledTask) : heappop [t] = some (t, []) := rfl

/-- Repeatedly run the handler for one task and let every run fail with the
given error: each round calls `_handle_task_failure`; while the task is
re-queued, pop it again from the heap (it is the only queued task) and run it
again.  Returns how many times the handler was executed (and failed) together
with the final scheduler state. -/
def simFailLoop : Nat → SchedState → ScheduledTask → String → PyExcKind →
    Nat → (Nat × SchedState)
  | 0, s, _, _, _, _ => (0, s)
  | fuel + 1, s, task, msg, exc, now =>
    match handleTaskFailure s task msg (some exc) now with
    | (s', .requeued _ _) =>
      match heappop s'.queue with
      | some (tp, q') =>
        let r := simFailLoop fuel { s' with queue := q' } tp msg exc
          tp.next_run_time
        (r.1 + 1, r.2)
      | none => (1, s')
    | (s', _) => (1, s')

lemma handleTaskFailure_network_requeues (s : SchedState)
    (task : ScheduledTask) (msg : String) (now : Nat)
    (h : task.retry_count + 1 ≤ task.max_retries)
    (hmsg : isStatusMismatchMsg msg = false) :
    handleTaskFailure s task msg (some .network) now =
      ({ s with
          queue := heappush s.queue
            { task with
              retry_count := task.retry_count + 1
              next_run_time := now + expBackoffDelay (task.retry_count + 1) }
          db := updateTaskStatus s.db task.id .QUEUED
            ("重试 " ++ toString (task.retry_count + 1) ++ "/"
              ++ toString task.max_retries ++ ": " ++ msg) now },
        .requeued
          { task with
            retry_count := task.retry_count + 1
            next_run_time := now + expBackoffDelay (task.retry_count + 1) }
          (expBackoffDelay (task.retry_count + 1))) := by
  simp [handleTaskFailure, classifyError, handleTaskRetry, h, hmsg]

lemma handleTaskFailure_network_exhausted (s : SchedState)
    (task : ScheduledTask) (msg : String) (now : Nat)
    (h : ¬ (task.retry_count + 1 ≤ task.max_retries)) :
    handleTaskFailure s task msg (some .network) now =
      ({ s with db := updateTaskStatus s.db task.id .FAILED msg now },
        .exhaustedFailed) := by
  simp [handleTaskFailure, classifyError, handleTaskRetry, h]

lemma simFailLoop_network_all_failing (f : Nat) :
    ∀ (s : SchedState) (task : ScheduledTask) (msg : String) (now : Nat),
      s.queue = [] → isStatusMismatchMsg msg = false →
      task.retry_count ≤ task.max_retries →
      task.max_retries - task.retry_count + 1 ≤ f →
      (simFailLoop f s task msg .network now).1 =
        task.max_retries - task.retry_count + 1 ∧
      (simFailLoop f s task msg .network now).2.queue = [] ∧
      ∀ r, s.db.lookup task.id = some r →
        ∃ r',
          (simFailLoop f s task msg .network now).2.db.lookup task.id =
            some r' ∧ r'.status = .FAILED := by
  induction f with
  | zero => intro s task msg now _ _ _ hf; omega
  | succ f ih =>
    intro s task msg now hq hmsg hrc hf
    by_cases hrem : task.retry_count + 1 ≤ task.max_retries
    · have hstep := handleTaskFailure_network_requeues s task msg now hrem hmsg
      have hq' : (heappush s.queue
          { task with
            retry_count := task.retry_count + 1
            next_run_time := now + expBackoffDelay (task.retry_count + 1) }) =
          [{ task with
            retry_count := task.retry_count + 1
            next_run_time := now + expBackoffDelay (task.retry_count + 1) }] := by
        rw [hq, heappush_nil]
      have hrec := ih
        { s with
          queue := []
          db := updateTaskStatus s.db task.id .QUEUED
            ("重试 " ++ toString (task.retry_count + 1) ++ "/"
              ++ toString task.max_retries ++ ": " ++ msg) now }
        { task with
          retry_count := task.retry_count + 1
          next_run_time := now + expBackoffDelay (task.retry_count + 1) }
        msg (now + expBackoffDelay (task.retry_count + 1))
        rfl hmsg hrem (by dsimp only; omega)
      have hunfold : simFailLoop (f + 1) s task msg .network now =
          ((simFailLoop f
              { s with
                queue := []
                db := updateTaskStatus s.db task.id .QUEUED
                  ("重试 " ++ toString (task.retry_count + 1) ++ "/"
                    ++ toString task.max_retries ++ ": " ++ msg) now }
              { task with
                retry_count := task.retry_count + 1
                next_run_time := now + expBackoffDelay (task.retry_count + 1) }
              msg .network
              (now + expBackoffDelay (task.retry_count + 1))).1 + 1,
            (simFailLoop f
              { s with
                queue := []
                db := updateTaskStatus s.db task.id .QUEUED
                  ("重试 " ++ toString (task.retry_count + 1) ++ "/"
                    ++ toString task.max_retries ++ ": " ++ msg) now }
              { task with
                retry_count := task.retry_count + 1
                next_run_time := now + expBackoffDelay (task.retry_count + 1) }
              msg .network
              (now + expBackoffDelay (task.retry_count + 1))).2) := by
        simp only [simFailLoop, hstep, hq', heappop_singleton]
      refine ⟨?_, ?_, ?_⟩
      · rw [hunfold]; rw [hrec.1]; dsimp only; omega
      · rw [hunfold]; exact hrec.2.1
      · intro r hr
        rw [hunfold]
        refine hrec.2.2 (applyStatusUpd r .QUEUED
          ("重试 " ++ toString (task.retry_count + 1) ++ "/"
            ++ toString task.max_retries ++ ": " ++ msg) now) ?_
        show (updateTaskStatus s.db task.id .QUEUED _ now).lookup task.id = _
        rw [lookup_updateTaskStatus, if_pos rfl, hr]; rfl
    · have hstep := handleTaskFailure_network_exhausted s task msg now hrem
      have hcount : task.max_retries - task.retry_count + 1 = 1 := by omega
      have hunfold : simFailLoop (f + 1) s task msg .network now =
          (1, { s with db := updateTaskStatus s.db task.id .FAILED msg now }) := by
        simp only [simFailLoop, hstep]
      refine ⟨by rw [hunfold, hcount], by rw [hunfold]; exact hq, ?_⟩
      intro r hr
      rw [hunfold]
      refine ⟨applyStatusUpd r .FAILED msg now, ?_, rfl⟩
      show (updateTaskStatus s.db task.id .FAILED msg now).lookup task.id = _
      rw [lookup_updateTaskStatus, if_pos rfl, hr]; rfl

/-- C4: a task with `maxRetries = 3` whose handler fails on every attempt
with a retryable network error is executed exactly `1 + 3 = 4` times however
long the scheduler keeps running (no fourth retry ever happens): after the
third retry fails, the durable row is marked `FAILED` and the task is not
re-pushed onto the in-memory queue. -/
theorem C4_retries_exhausted_marks_failed (s : SchedState)
    (task : ScheduledTask) (msg : String) (now : Nat) (fuel : Nat)
    (hq : s.queue = []) (hrc : task.retry_count = 0)
    (hmr : task.max_retries = 3) (hmsg : isStatusMismatchMsg msg = false)
    (hfuel : 4 ≤ fuel) :
    (simFailLoop fuel s task msg .network now).1 = 4 ∧
    (simFailLoop fuel s task msg .network now).2.queue = [] ∧
    ∀ r, s.db.lookup task.id = some r →
      ∃ r',
        (simFailLoop fuel s task msg .network now).2.db.lookup task.id =
          some r' ∧ r'.status = .FAILED := by
  have h := simFailLoop_network_all_failing fuel s task msg now hq hmsg
    (by omega) (by omega)
  rw [hrc, hmr] at h
  exact h

/-- The concrete durable row of the C4 witness. -/
def c4Row : TaskRecord := ⟨10, "search", .ACTIVE, 5, 3, "", 0, none, none⟩

/-- The concrete scheduler state of the C4 witness. -/
def c4State : SchedState :=
  { max_concurrent_tasks := 2
    db := [(1, c4Row)] }

/-- The concrete task of the C4 witness (`retry_count = 0`,
`max_retries = 3`). -/
def c4Task : ScheduledTask := ⟨1, 10, "search", 5, 0, 0, 3, 0⟩

/-- Witness for `C4_retries_exhausted_marks_failed` on a concrete task and
store, with fuel 6 > 4. -/
theorem C4_retries_exhausted_marks_failed_witness :
    (simFailLoop 6 c4State c4Task "connection timeout" .network 0).1 = 4 ∧
    (simFailLoop 6 c4State c4Task "connection timeout" .network 0).2.queue
      = [] ∧
    ∃ r',
      (simFailLoop 6 c4State c4Task "connection timeout" .network
        0).2.db.lookup 1 = some r' ∧ r'.status = .FAILED := by
  obtain ⟨h1, h2, h3⟩ := C4_retries_exhausted_marks_failed c4State c4Task
    "connection timeout" 0 6 rfl rfl rfl (by decide) (by decide)
  exact ⟨h1, h2, h3 c4Row rfl⟩

/-! ## Pipeline stage execution wrapper (`src/core/pipeline.py`) -/

/-- A status-transition history row written by the state manager. -/
structure HistEntry where
  book_id : Nat
  old_status : BStatus
  new_status : BStatus
deriving DecidableEq, Repr

/-- The book store plus the transition history the state manager owns. -/
structure ExecState where
  books : List (Nat × BStatus)
  history : List HistEntry := []
deriving DecidableEq, Repr

/-- Modelled from the spec: `BookStateManager.transition_status` of
`core/state_manager.py` (imported throughout the repository but absent from
`src/`): load the item, write the new status and append one history row;
invalid combinations are still written since the caller, not this layer,
enforces eligibility. -/
def transitionStatus (s : ExecState) (bookId : Nat) (newStatus : BStatus) :
    ExecState :=
  match s.books.lookup bookId with
  | none => s
  | some old =>
    { books := s.books.map
        (fun kr => (kr.1, if kr.1 = bookId then newStatus else kr.2))
      history := s.history ++ [⟨bookId, old, newStatus⟩] }

/-- A stage as the shared execution wrapper sees it: its name, its
`can_process` predicate on the re-read status, and its `get_next_status`
success mapping. -/
structure StageSpec where
  name : String
  canProc : BStatus → Bool
  nextStatus : Bool → BStatus

/-- `BaseStage._get_active_status`. -/
def getActiveStatus : String → Option BStatus
  | "data_collection" => some .DETAIL_FETCHING
  | "search" => some .SEARCH_ACTIVE
  | "download" => some .DOWNLOAD_ACTIVE
  | "upload" => some .UPLOAD_ACTIVE
  | _ => none

/-- `BaseStage._get_retry_status`. -/
def getRetryStatus : String → BStatus
  | "data_collection" => .NEW
  | "search" => .SEARCH_QUEUED
  | "download" => .DOWNLOAD_QUEUED
  | "upload" => .UPLOAD_QUEUED
  | _ => .FAILED_PERMANENT

/-- What this run of the stage's `process` does: return a boolean, raise the
download-limit (quota) signal, raise a classified `ProcessingError`, or raise
an unclassified exception. -/
inductive ProcBehavior where
  | ok (success : Bool)
  | quotaExhausted (resetTime : String)
  | procError (errType : String) (retryable : Bool) (msg : String)
  | otherExc (msg : String)
deriving DecidableEq, Repr

/-- Result of `BaseStage.execute`: a returned boolean, or the re-raised
download-limit signal. -/
inductive ExecResult where
  | normal (success : Bool)
  | raisedQuota (resetTime : String)
deriving DecidableEq, Repr

/-- `BaseStage.execute`: re-read the live status; when `can_process` fails,
the raised non-retryable status-mismatch `ProcessingError` is caught by this
method's own `except ProcessingError` clause, which writes
`FAILED_PERMANENT` and returns `False`.  Otherwise: the search stage
pre-transitions `DETAIL_COMPLETE → SEARCH_QUEUED`; the stage's active
sub-status is written; `process` runs; on success the mapped next status is
written; the quota signal is re-raised with no further transition; a
retryable `ProcessingError` writes the stage's queued sub-status; anything
else writes `FAILED_PERMANENT`. -/
def stageExecute (st : StageSpec) (proc : ProcBehavior) (bookId : Nat)
    (inMemStatus : BStatus) (s : ExecState) : ExecResult × ExecState :=
  let status := (s.books.lookup bookId).getD inMemStatus
  if ¬ st.canProc status then
    (.normal false, transitionStatus s bookId .FAILED_PERMANENT)
  else
    let stepped :=
      if st.name = "search" ∧ status = .DETAIL_COMPLETE then
        transitionStatus s bookId .SEARCH_QUEUED
      else s
    let s1 :=
      match getActiveStatus st.name with
      | some a => transitionStatus stepped bookId a
      | none => stepped
    match proc with
    | .ok success =>
      (.normal success, transitionStatus s1 bookId (st.nextStatus success))
    | .quotaExhausted rt => (.raisedQuota rt, s1)
    | .procError _ retryable _ =>
      (.normal false,
        transitionStatus s1 bookId
          (if retryable then getRetryStatus st.name else .FAILED_PERMANENT))
    | .otherExc _ =>
      (.normal false, transitionStatus s1 bookId .FAILED_PERMANENT)

/-- The state a `PipelineManager` owns. -/
structure PMState where
  max_workers : Nat
  execSt : ExecState
  paused : List (String × String) := []
  activeIds : List Nat := []
deriving DecidableEq, Repr

/-- Python dict assignment on an association list (update or insert). -/
def setKey (m : List (String × String)) (k v : String) :
    List (String × String) :=
  if (m.lookup k).isSome then
    m.map (fun kr => (kr.1, if kr.1 = k then v else kr.2))
  else m ++ [(k, v)]

/-- The pause reason string `PipelineManager._execute_stage_with_session`
records. -/
def pauseReason (rt : String) : String := "下载限制耗尽，重置时间: " ++ rt

/-- `PipelineManager._execute_stage_with_session`: look the book up, run the
stage's wrapper; when the download-limit signal propagates out, record the
stage name in the paused-stage map with a reason and return `False`. -/
def execStageWithSession (pm : PMState) (st : StageSpec) (proc : ProcBehavior)
    (bookId : Nat) : Bool × PMState :=
  match pm.execSt.books.lookup bookId with
  | none => (false, pm)
  | some memStatus =>
    match stageExecute st proc bookId memStatus pm.execSt with
    | (.normal b, s') => (b, { pm with execSt := s' })
    | (.raisedQuota rt, s') =>
      (false,
        { pm with
          execSt := s'
          paused := setKey pm.paused st.name (pauseReason rt) })

/-- Modelled from the spec: `BookStateManager.get_books_by_stage` of
`core/state_manager.py` (absent from `src/`): return items whose current
status is in the stage's acceptable-predecessor set, bounded by `limit`. -/
def getBooksByStage (books : List (Nat × BStatus)) (stageKey : String)
    (limit : Nat) : List (Nat × BStatus) :=
  (books.filter (fun kr => kr.2 ∈ stageAcceptableStatuses stageKey)).take limit

/-- `PipelineManager._process_stage`: a paused stage is skipped outright (no
fetch, no submission); otherwise fetch up to 10 eligible books, filter by
`can_process`, and submit up to the free worker slots of them, tracking the
submitted ids in the active map.  Returns the submitted book ids. -/
def processStage (pm : PMState) (stageName : String) (st : StageSpec) :
    List Nat × PMState :=
  if (pm.paused.lookup stageName).isSome then ([], pm)
  else
    let books := getBooksByStage pm.execSt.books stageName 10
    if books = [] then ([], pm)
    else
      let processable := books.filter (fun kr => st.canProc kr.2)
      if processable = [] then ([], pm)
      else
        let availableSlots := pm.max_workers - pm.activeIds.length
        if availableSlots = 0 then ([], pm)
        else
          let ids := (processable.take availableSlots).map Prod.fst
          (ids, { pm with activeIds := pm.activeIds ++ ids })

/-- `PipelineManager.resume_stage`: drop the stage from the paused map. -/
def resumeStage (pm : PMState) (stageName : String) : PMState :=
  { pm with paused := pm.paused.filter (fun kr => kr.1 ≠ stageName) }

/-- `SearchStage`: `can_process` accepts `DETAIL_COMPLETE` and
`SEARCH_QUEUED`; `get_next_status` maps success to `SKIPPED_EXISTS` when the
book already exists in Calibre, `SEARCH_COMPLETE` when a qualifying result
was queued, `SEARCH_NO_RESULTS` otherwise, and failure to
`SEARCH_NO_RESULTS`. -/
def searchStageSpec (calibreExists foundQualifying : Bool) : StageSpec :=
  { name := "search"
    canProc := fun st => st = .DETAIL_COMPLETE || st = .SEARCH_QUEUED
    nextStatus := fun success =>
      if success then
        if calibreExists then .SKIPPED_EXISTS
        else if foundQualifying then .SEARCH_COMPLETE
        else .SEARCH_NO_RESULTS
      else .SEARCH_NO_RESULTS }

/-- `UploadStage`: `can_process` accepts `DOWNLOAD_COMPLETE`,
`UPLOAD_QUEUED` and `UPLOAD_ACTIVE` (on the freshly re-read status);
success maps to `UPLOAD_COMPLETE`, failure to `UPLOAD_FAILED`. -/
def uploadStageSpec : StageSpec :=
  { name := "upload"
    canProc := fun st =>
      st = .DOWNLOAD_COMPLETE || st = .UPLOAD_QUEUED || st = .UPLOAD_ACTIVE
    nextStatus := fun success =>
      if success then .UPLOAD_COMPLETE else .UPLOAD_FAILED }

lemma lookup_map_set {κ α : Type} [DecidableEq κ] [BEq κ] [LawfulBEq κ]
    (l : List (κ × α)) (tid qid : κ) (f : α → α) :
    (l.map (fun kr => (kr.1, if kr.1 = tid then f kr.2 else kr.2))).lookup
        qid =
      if qid = tid then (l.lookup qid).map f else l.lookup qid := by
  induction l with
  | nil => simp
  | cons kr rest ih =>
    obtain ⟨k, r⟩ := kr
    simp only [List.map_cons, List.lookup] at ih ⊢
    by_cases h2 : qid = k
    · subst h2
      by_cases h1 : qid = tid <;> simp [h1]
    · have hbeq : (qid == k) = false := beq_eq_false_iff_ne.mpr h2
      simp only [hbeq]
      exact ih

lemma lookup_append_single_of_none {κ α : Type} [BEq κ] [LawfulBEq κ]
    (m : List (κ × α)) (k : κ) (v : α) (h : m.lookup k = none) :
    (m ++ [(k, v)]).lookup k = some v := by
  induction m with
  | nil => simp [List.lookup]
  | cons kr rest ih =>
    obtain ⟨k', v'⟩ := kr
    simp only [List.lookup, List.cons_append] at h ⊢
    cases hbeq : (k == k') with
    | true => rw [hbeq] at h; cases h
    | false => rw [hbeq] at h; exact ih h

lemma lookup_setKey_self (m : List (String × String)) (k v : String) :
    (setKey m k v).lookup k = some v := by
  unfold setKey
  by_cases h : (m.lookup k).isSome
  · have hmap := lookup_map_set m k k (fun _ => v)
    rw [if_pos rfl] at hmap
    rw [if_pos h, hmap]
    obtain ⟨w, hw⟩ := Option.isSome_iff_exists.mp h
    rw [hw]; rfl
  · rw [if_neg h]
    exact lookup_append_single_of_none m k v (Option.not_isSome_iff_eq_none.mp h)

lemma lookup_filter_ne (m : List (String × String)) (k : String) :
    (m.filter (fun kr => kr.1 ≠ k)).lookup k = none := by
  induction m with
  | nil => rfl
  | cons kr rest ih =>
    obtain ⟨k', v'⟩ := kr
    rw [List.filter_cons]
    by_cases h : k' = k
    · have hcond : (decide (((k', v') : String × String).1 ≠ k)) = false := by
        simp [h]
      rw [hcond]
      simpa using ih
    · have hcond : (decide (((k', v') : String × String).1 ≠ k)) = true := by
        simp [h]
      rw [hcond]
      have hbeq : (k == k') = false := beq_eq_false_iff_ne.mpr (Ne.symm h)
      simp only [if_true, List.lookup, hbeq]
      exact ih

lemma transitionStatus_present (s : ExecState) (bookId : Nat)
    (old ns : BStatus) (h : s.books.lookup bookId = some old) :
    (transitionStatus s bookId ns).books.lookup bookId = some ns ∧
    (transitionStatus s bookId ns).history =
      s.history ++ [⟨bookId, old, ns⟩] := by
  unfold transitionStatus
  rw [h]
  refine ⟨?_, rfl⟩
  show (s.books.map _).lookup bookId = some ns
  have hmap := lookup_map_set s.books bookId bookId (fun _ => ns)
  rw [if_pos rfl] at hmap
  rw [hmap, h]
  rfl

lemma stageExecute_quota (st : StageSpec) (rt : String) (bookId : Nat)
    (memSt : BStatus) (s : ExecState) (a : BStatus)
    (hb : s.books.lookup bookId = some memSt) (hcan : st.canProc memSt = true)
    (ha : getActiveStatus st.name = some a) :
    stageExecute st (.quotaExhausted rt) bookId memSt s =
      (.raisedQuota rt,
        transitionStatus
          (if st.name = "search" ∧ memSt = .DETAIL_COMPLETE then
            transitionStatus s bookId .SEARCH_QUEUED
          else s)
          bookId a) := by
  unfold stageExecute
  rw [hb]
  simp [hcan, ha]

/-- C5: when a stage's `process` raises the download-limit (quota-exhausted)
signal, the execution wrapper writes no transition in response — the book is
left exactly at the active sub-status set before `process`, and the history
gained only the pre-`process` rows — the pipeline manager records the stage
name in the paused map with a reason string, every subsequent
`_process_stage` tick on a paused stage fetches and submits nothing and
leaves the pipeline state unchanged, and `resume_stage` removes the mark. -/
theorem C5_quota_pauses_stage (pm : PMState) (st : StageSpec) (rt : String)
    (bookId : Nat) (memSt : BStatus) (a : BStatus)
    (hb : pm.execSt.books.lookup bookId = some memSt)
    (hcan : st.canProc memSt = true)
    (ha : getActiveStatus st.name = some a) :
    (execStageWithSession pm st (.quotaExhausted rt) bookId).1 = false ∧
    (execStageWithSession pm st (.quotaExhausted rt)
        bookId).2.execSt.books.lookup bookId = some a ∧
    (execStageWithSession pm st (.quotaExhausted rt) bookId).2.execSt.history =
      pm.execSt.history ++
        (if st.name = "search" ∧ memSt = .DETAIL_COMPLETE then
          [⟨bookId, memSt, .SEARCH_QUEUED⟩, ⟨bookId, .SEARCH_QUEUED, a⟩]
        else [⟨bookId, memSt, a⟩]) ∧
    (execStageWithSession pm st (.quotaExhausted rt)
        bookId).2.paused.lookup st.name = some (pauseReason rt) ∧
    (∀ (pmX : PMState) (stX : StageSpec),
      (pmX.paused.lookup st.name).isSome →
      processStage pmX st.name stX = ([], pmX)) ∧
    (resumeStage (execStageWithSession pm st (.quotaExhausted rt) bookId).2
        st.name).paused.lookup st.name = none := by
  have hexec := stageExecute_quota st rt bookId memSt pm.execSt a hb hcan ha
  have hwrap : execStageWithSession pm st (.quotaExhausted rt) bookId =
      (false,
        { pm with
          execSt := transitionStatus
            (if st.name = "search" ∧ memSt = .DETAIL_COMPLETE then
              transitionStatus pm.execSt bookId .SEARCH_QUEUED
            else pm.execSt)
            bookId a
          paused := setKey pm.paused st.name (pauseReason rt) }) := by
    unfold execStageWithSession
    rw [hb]
    dsimp only
    rw [hexec]
  refine ⟨by rw [hwrap], ?_, ?_, ?_, ?_, ?_⟩
  · rw [hwrap]
    by_cases hsearch : st.name = "search" ∧ memSt = .DETAIL_COMPLETE
    · rw [if_pos hsearch]
      exact (transitionStatus_present _ bookId .SEARCH_QUEUED a
        (transitionStatus_present pm.execSt bookId memSt .SEARCH_QUEUED hb).1).1
    · rw [if_neg hsearch]
      exact (transitionStatus_present pm.execSt bookId memSt a hb).1
  · rw [hwrap]
    by_cases hsearch : st.name = "search" ∧ memSt = .DETAIL_COMPLETE
    · rw [if_pos hsearch, if_pos hsearch]
      obtain ⟨hb1, hh1⟩ :=
        transitionStatus_present pm.execSt bookId memSt .SEARCH_QUEUED hb
      obtain ⟨-, hh2⟩ := transitionStatus_present _ bookId .SEARCH_QUEUED a hb1
      rw [hh2, hh1, List.append_assoc]
      rfl
    · rw [if_neg hsearch, if_neg hsearch]
      exact (transitionStatus_present pm.execSt bookId memSt a hb).2
  · rw [hwrap]
    exact lookup_setKey_self pm.paused st.name (pauseReason rt)
  · intro pmX stX hp
    unfold processStage
    rw [if_pos hp]
  · rw [hwrap]
    exact lookup_filter_ne _ st.name

/-- Witness for `C5_quota_pauses_stage`: the upload stage raising the quota
signal on a book in `UPLOAD_QUEUED`. -/
theorem C5_quota_pauses_stage_witness :
    (execStageWithSession
      { max_workers := 4, execSt := ⟨[(3, .UPLOAD_QUEUED)], []⟩ }
      uploadStageSpec (.quotaExhausted "tomorrow") 3).1 = false ∧
    (execStageWithSession
      { max_workers := 4, execSt := ⟨[(3, .UPLOAD_QUEUED)], []⟩ }
      uploadStageSpec (.quotaExhausted "tomorrow")
      3).2.execSt.books.lookup 3 = some .UPLOAD_ACTIVE ∧
    (execStageWithSession
      { max_workers := 4, execSt := ⟨[(3, .UPLOAD_QUEUED)], []⟩ }
      uploadStageSpec (.quotaExhausted "tomorrow")
      3).2.paused.lookup "upload" = some (pauseReason "tomorrow") := by
  obtain ⟨h1, h2, -, h4, -, -⟩ := C5_quota_pauses_stage
    { max_workers := 4, execSt := ⟨[(3, .UPLOAD_QUEUED)], []⟩ }
    uploadStageSpec "tomorrow" 3 .UPLOAD_QUEUED .UPLOAD_ACTIVE rfl rfl rfl
  exact ⟨h1, h2, h4⟩

/-- C6 (code evaluated at the failing input): when the freshly re-read status
fails `can_process` (here: the search stage on a book whose live status is
`COMPLETED`), `BaseStage.execute` does NOT raise the status-mismatch failure
to its caller — the raise inside its own `try` block is caught by its own
`except ProcessingError` clause, which (the error being non-retryable)
writes a `COMPLETED → FAILED_PERMANENT` transition for the item and returns
`False`.  The stage's active sub-status is indeed not set. -/
theorem C6_status_mismatch_not_raised :
    stageExecute (searchStageSpec false false) (.ok true) 1 .COMPLETED
        ⟨[(1, .COMPLETED)], []⟩ =
      (.normal false,
        ⟨[(1, .FAILED_PERMANENT)], [⟨1, .COMPLETED, .FAILED_PERMANENT⟩]⟩) := by
  rfl

/-! ## Search-stage best-match selection (`src/stages/search_stage.py`) -/

/-- A `ZLibraryBook` row as `_add_best_match_to_queue` reads it.  Match
scores are Python floats undergoing only comparison, subtraction, scaling and
truncation here, modelled as `ℚ`. -/
structure ZBook where
  id : Nat
  match_score : ℚ
  extension : String
  download_url : String
  url : String
deriving DecidableEq, Repr

/-- The stage's `format_priority` table (`.get(ext, 0)` on the lower-cased
extension, empty for a missing one). -/
def formatPriority (ext : String) : Nat :=
  if ext = "epub" then 3
  else if ext = "mobi" then 2
  else if ext = "pdf" then 1
  else if ext = "azw3" then 2
  else if ext = "txt" then 0
  else 0

/-- Python's ASCII `str.lower()` (character-wise). -/
def strLower (s : String) : String := ⟨s.data.map Char.toLower⟩

/-- The format score of a candidate:
`format_priority.get(extension.lower() if extension else '', 0)`. -/
def formatScoreOf (z : ZBook) : Nat := formatPriority (strLower z.extension)

/-- Python `int()` on a rational: truncation toward zero. -/
def pyInt (q : ℚ) : ℤ := if 0 ≤ q then ⌊q⌋ else ⌈q⌉

/-- A `DownloadQueue` row as the search stage creates it. -/
structure DownloadQueueEntry where
  douban_book_id : Nat
  zlibrary_book_id : Nat
  download_url : String
  priority : ℤ
  status : String
deriving DecidableEq, Repr

/-- The candidate-selection loop of `_add_best_match_to_queue`: start from
the top query result, and over the first three results replace the running
candidate by any result within 0.1 of the top score that has a strictly
better format score. -/
def selStep (best bc z : ZBook) : ZBook :=
  if best.match_score - z.match_score ≤ 1 / 10 ∧
      formatScoreOf z > formatScoreOf bc then z
  else bc

def selectBestCandidate (cands : List ZBook) : Option ZBook :=
  match cands with
  | [] => none
  | best :: _ => some ((cands.take 3).foldl (selStep best) best)

/-- `SearchStage._add_best_match_to_queue`, with `cands` standing for the
result of the stored query (available candidates with
`match_score >= min_match_score`, ordered by `match_score` descending) and
`existingInQueue` for the already-in-queue check: return `True` untouched if
an entry exists; return `False` when the query is empty; otherwise write a
queue entry for the selected candidate with
`priority = int(match_score * 100)`. -/
def addBestMatchToQueue (bookId : Nat) (existingInQueue : Bool)
    (cands : List ZBook) : Bool × Option DownloadQueueEntry :=
  if existingInQueue then (true, none)
  else
    match selectBestCandidate cands with
    | none => (false, none)
    | some c =>
      (true, some
        { douban_book_id := bookId
          zlibrary_book_id := c.id
          download_url := if c.download_url ≠ "" then c.download_url else c.url
          priority := pyInt (c.match_score * 100)
          status := "queued" })

/-- The priority formula the claim states:
`round(matchScore*100) + formatBonus`, the bonus taken from the stage's
format-priority table. -/
def specClaimedPriority (score : ℚ) (ext : String) : ℤ :=
  round (score * 100) + formatPriority (strLower ext)

/-- The single candidate of the C7 counterexample:
`match_score = 0.856`, epub. -/
def c7Candidate : ZBook := ⟨5, 107 / 125, "epub", "dl", "u"⟩

/-- C7 counterexample: on the single available candidate with match score
0.856 in epub format, the queue entry the code writes has priority
`int(0.856*100) = 85`, while the claimed formula
`round(matchScore*100) + formatBonus` gives `86 + 3 = 89` — and even with a
zero bonus `round` alone gives 86 ≠ 85. -/
theorem C7_priority_formula_counterexample :
    (addBestMatchToQueue 7 false [c7Candidate]).2 =
      some ⟨7, 5, "dl", 85, "queued"⟩ ∧
    specClaimedPriority c7Candidate.match_score c7Candidate.extension = 89 ∧
    round (c7Candidate.match_score * 100) = 86 ∧
    ((85 : ℤ) ≠ 89 ∧ (85 : ℤ) ≠ 86) := by
  have hlow : strLower "epub" = "epub" := by decide
  have hq : c7Candidate.match_score * 100 = 428 / 5 := by norm_num [c7Candidate]
  refine ⟨?_, ?_, ?_, by decide, by decide⟩
  · have hsel : selectBestCandidate [c7Candidate] = some c7Candidate := by
      simp [selectBestCandidate, selStep, lt_irrefl]
    simp only [addBestMatchToQueue, Bool.false_eq_true, if_false, hsel]
    simp [c7Candidate, pyInt, hq]
    norm_num [Int.floor_eq_iff]
  · norm_num [specClaimedPriority, c7Candidate, formatPriority, round_eq, hlow]
  · rw [hq]; norm_num [round_eq]

lemma selFold_props (best : ZBook) (L : List ZBook) :
    ∀ bc : ZBook,
      (L.foldl (selStep best) bc = bc ∨
        (L.foldl (selStep best) bc ∈ L ∧
          best.match_score - (L.foldl (selStep best) bc).match_score ≤ 1 / 10)) ∧
      formatScoreOf bc ≤ formatScoreOf (L.foldl (selStep best) bc) ∧
      (∀ z ∈ L, best.match_score - z.match_score ≤ 1 / 10 →
        formatScoreOf z ≤ formatScoreOf (L.foldl (selStep best) bc)) := by
  induction L with
  | nil => exact fun bc => ⟨Or.inl rfl, le_refl _, by simp⟩
  | cons z L ih =>
    intro bc
    simp only [List.foldl_cons]
    obtain ⟨ihm, ihf, ihall⟩ := ih (selStep best bc z)
    by_cases hc : best.match_score - z.match_score ≤ 1 / 10 ∧
        formatScoreOf z > formatScoreOf bc
    · have hstep : selStep best bc z = z := if_pos hc
      rw [hstep] at ihm ihf ihall ⊢
      refine ⟨?_, ?_, ?_⟩
      · rcases ihm with h | ⟨hm, hw⟩
        · right; rw [h]; exact ⟨List.mem_cons_self z L, hc.1⟩
        · right; exact ⟨List.mem_cons_of_mem z hm, hw⟩
      · exact le_trans (le_of_lt hc.2) ihf
      · intro w hw hwin
        rcases List.mem_cons.mp hw with rfl | hwL
        · exact ihf
        · exact ihall w hwL hwin
    · have hstep : selStep best bc z = bc := if_neg hc
      rw [hstep] at ihm ihf ihall ⊢
      refine ⟨?_, ihf, ?_⟩
      · rcases ihm with h | ⟨hm, hw⟩
        · exact Or.inl h
        · exact Or.inr ⟨List.mem_cons_of_mem z hm, hw⟩
      · intro w hw hwin
        rcases List.mem_cons.mp hw with rfl | hwL
        · have hle : formatScoreOf w ≤ formatScoreOf bc := by
            by_contra hgt
            exact hc ⟨hwin, Nat.lt_of_not_le hgt⟩
          exact le_trans hle ihf
        · exact ihall w hwL hwin

/-- C7 amended: when the search stage writes a download-queue entry from a
nonempty query result (available candidates at or above the configured
floor, top score first), the selected candidate is drawn from the top three
results, its score is within 0.1 of the maximum score, its format score is
maximal among the top-three candidates within 0.1 of the best (and at least
the top result's), and the entry's priority is
`int(matchScore*100)` — truncation, with no format bonus. -/
theorem C7_best_match_selection_amended (bookId : Nat) (best : ZBook)
    (rest : List ZBook) (minScore : ℚ)
    (hsorted : ∀ z ∈ rest, z.match_score ≤ best.match_score)
    (hfloor : ∀ z ∈ best :: rest, minScore ≤ z.match_score) :
    ∃ c,
      selectBestCandidate (best :: rest) = some c ∧
      (addBestMatchToQueue bookId false (best :: rest)).1 = true ∧
      (addBestMatchToQueue bookId false (best :: rest)).2 =
        some ⟨bookId, c.id,
          if c.download_url ≠ "" then c.download_url else c.url,
          pyInt (c.match_score * 100), "queued"⟩ ∧
      c ∈ (best :: rest).take 3 ∧
      minScore ≤ c.match_score ∧
      (∀ z ∈ best :: rest, z.match_score ≤ best.match_score) ∧
      best.match_score - c.match_score ≤ 1 / 10 ∧
      formatScoreOf best ≤ formatScoreOf c ∧
      (∀ z ∈ (best :: rest).take 3,
        best.match_score - z.match_score ≤ 1 / 10 →
        formatScoreOf z ≤ formatScoreOf c) := by
  have hsel : selectBestCandidate (best :: rest) =
      some (((best :: rest).take 3).foldl (selStep best) best) := rfl
  obtain ⟨hm, hf, hall⟩ := selFold_props best ((best :: rest).take 3) best
  refine ⟨((best :: rest).take 3).foldl (selStep best) best, hsel, ?_, ?_,
    ?_, ?_, ?_, ?_, hf, hall⟩
  · simp only [addBestMatchToQueue, Bool.false_eq_true, if_false, hsel]
  · simp only [addBestMatchToQueue, Bool.false_eq_true, if_false, hsel]
  · rcases hm with h | ⟨hmem, -⟩
    · rw [h]; simp
    · exact hmem
  · rcases hm with h | ⟨hmem, -⟩
    · rw [h]; exact hfloor best (List.mem_cons_self best rest)
    · exact hfloor _ (List.take_subset 3 (best :: rest) hmem)
  · intro z hz
    rcases List.mem_cons.mp hz with rfl | hzr
    · exact le_refl _
    · exact hsorted z hzr
  · rcases hm with h | ⟨-, hw⟩
    · rw [h, sub_self]; norm_num
    · exact hw

/-- The top query result of the C7 witness: score 0.86, pdf. -/
def c7Best : ZBook := ⟨1, 86 / 100, "pdf", "d1", "u1"⟩

/-- The runner-up of the C7 witness: score 0.82 (within 0.1), epub. -/
def c7Second : ZBook := ⟨2, 82 / 100, "epub", "d2", "u2"⟩

/-- Witness for `C7_best_match_selection_amended` on a two-candidate query
result. -/
theorem C7_best_match_selection_amended_witness :
    ∃ c,
      selectBestCandidate (c7Best :: [c7Second]) = some c ∧
      (addBestMatchToQueue 9 false (c7Best :: [c7Second])).1 = true ∧
      (addBestMatchToQueue 9 false (c7Best :: [c7Second])).2 =
        some ⟨9, c.id,
          if c.download_url ≠ "" then c.download_url else c.url,
          pyInt (c.match_score * 100), "queued"⟩ ∧
      c ∈ (c7Best :: [c7Second]).take 3 ∧
      (6 : ℚ) / 10 ≤ c.match_score ∧
      (∀ z ∈ c7Best :: [c7Second], z.match_score ≤ c7Best.match_score) ∧
      c7Best.match_score - c.match_score ≤ 1 / 10 ∧
      formatScoreOf c7Best ≤ formatScoreOf c ∧
      (∀ z ∈ (c7Best :: [c7Second]).take 3,
        c7Best.match_score - z.match_score ≤ 1 / 10 →
        formatScoreOf z ≤ formatScoreOf c) := by
  refine C7_best_match_selection_amended 9 c7Best [c7Second] (6 / 10) ?_ ?_
  · intro z hz
    simp only [List.mem_singleton] at hz
    subst hz
    norm_num [c7Best, c7Second]
  · intro z hz
    rcases List.mem_cons.mp hz with rfl | hz'
    · norm_num [c7Best]
    · simp only [List.mem_singleton] at hz'
      subst hz'
      norm_num [c7Second]

end AutoBook
